import Mathlib

/-!
Verification development for the satvis scene-object lifecycle and
batched-primitive manager.

The definitions below are a shallow embedding of
`src/modules/util/CesiumCallbackHelper.js` and
`src/modules/util/CesiumComponentCollection.js`.  State held in JS closures
and in class-static fields is made explicit; the frame-driven host (Cesium
clock ticks, primitive readiness, the ICRF-to-fixed frame transform provider)
is modelled as an environment that supplies one input record per tick.
Simulated times are rationals (for the duration-based scheduler) or integers
(for the tick-driven rebuild machine); an inertial-to-fixed rotation matrix is
identified by the time at which it was computed.
-/

set_option maxRecDepth 8000

namespace CesiumCallbackHelper

/-- One invocation of the listener registered by
`createPeriodicTickCallback(viewer, refreshRate, callback)`.  The closure
variable `ticks` starts at 0; each event invocation either increments it
(`ticks < refreshRate`) or runs the callback and resets it to 0.  Returns the
new counter and whether the callback ran. -/
def periodicTickStep (refreshRate ticks : Nat) : Nat × Bool :=
  if ticks < refreshRate then (ticks + 1, false) else (0, true)

/-- Number of callback invocations over `k` consecutive event invocations,
starting from counter value `ticks`. -/
def periodicTickFireCount (refreshRate : Nat) : Nat → Nat → Nat
  | _, 0 => 0
  | ticks, k + 1 =>
    let s := periodicTickStep refreshRate ticks
    (if s.2 then 1 else 0) + periodicTickFireCount refreshRate s.1 k

/-- One invocation of the listener registered by
`createPeriodicTimeCallback(viewer, refreshRate, callback)`.  The closure
variable `lastUpdated` starts at the registration-time clock value; the
callback runs when the absolute simulated-time difference reaches
`refreshRate` seconds, and then `lastUpdated` is reset to the current time.
Returns the new `lastUpdated` and whether the callback ran. -/
def periodicTimeStep (refreshRate lastUpdated time : ℚ) : ℚ × Bool :=
  if |time - lastUpdated| < refreshRate then (lastUpdated, false) else (time, true)

/-- Number of callback invocations over a list of tick timestamps, starting
from reference timestamp `lastUpdated`. -/
def periodicTimeFireCount (refreshRate : ℚ) : ℚ → List ℚ → Nat
  | _, [] => 0
  | lastUpdated, t :: ts =>
    let s := periodicTimeStep refreshRate lastUpdated t
    (if s.2 then 1 else 0) + periodicTimeFireCount refreshRate s.1 ts

end CesiumCallbackHelper

/-- A stored visual component: the runtime type tested by the
`instanceof Cesium.Entity / Cesium.Primitive / Cesium.GeometryInstance`
branches of `enableComponent` / `disableComponent`.  The `Nat` payload is the
object identity. -/
inductive Component
  | entity (id : Nat)
  | primitive (id : Nat)
  | geometryInstance (id : Nat)
deriving DecidableEq, Repr

/-- The observable state touched by one `CesiumComponentCollection` instance:
its own `#components` map (a JS object, i.e. an insertion-ordered map with
distinct keys), its `lazy` flag and `defaultEntity`, the shared
`viewer.entities` and `viewer.scene.primitives` stores, and the class-static
`geometries` contribution list. -/
structure CCState where
  components : List (String × Component)
  lazy : Bool
  defaultEntity : Option Component
  entities : List Component
  scenePrimitives : List Component
  geometries : List Component
deriving DecidableEq, Repr

namespace CCState

/-- `componentNames` getter: `Object.keys(this.components)`. -/
def componentNames (s : CCState) : List String :=
  s.components.map Prod.fst

/-- `created` getter: `this.componentNames.length > 0`. -/
def created (s : CCState) : Bool :=
  decide (0 < (componentNames s).length)

/-- `enableComponent(name)` from `CesiumComponentCollection.js`.  Unknown
names are a no-op.  Entities and primitives are added to the corresponding
store only if not already contained; a geometry instance is pushed onto the
static `geometries` list unconditionally (and a rebuild is requested, which
only touches the rebuild machine, modelled separately).  Finally
`defaultEntity` is set to the component if it was unset. -/
def enableComponent (s : CCState) (name : String) : CCState :=
  match s.components.lookup name with
  | none => s
  | some c =>
    let s1 : CCState :=
      match c with
      | Component.entity _ =>
        if s.entities.contains c then s else { s with entities := s.entities ++ [c] }
      | Component.primitive _ =>
        if s.scenePrimitives.contains c then s
        else { s with scenePrimitives := s.scenePrimitives ++ [c] }
      | Component.geometryInstance _ => { s with geometries := s.geometries ++ [c] }
    if s1.defaultEntity.isNone then { s1 with defaultEntity := some c } else s1

/-- `disableComponent(name)` from `CesiumComponentCollection.js`.  Unknown
names are a no-op.  The component is removed from the corresponding store
(for a geometry instance: `geometries = geometries.filter(g => g !== c)`),
and when `lazy` the map entry is deleted. -/
def disableComponent (s : CCState) (name : String) : CCState :=
  match s.components.lookup name with
  | none => s
  | some c =>
    let s1 : CCState :=
      match c with
      | Component.entity _ => { s with entities := s.entities.filter (fun x => x != c) }
      | Component.primitive _ =>
        { s with scenePrimitives := s.scenePrimitives.filter (fun x => x != c) }
      | Component.geometryInstance _ =>
        { s with geometries := s.geometries.filter (fun x => x != c) }
    if s1.lazy then { s1 with components := s1.components.filter (fun p => p.1 != name) }
    else s1

/-- `show(componentNames)`: enable each named component in order. -/
def showComponents (s : CCState) (names : List String) : CCState :=
  names.foldl enableComponent s

/-- `hide(componentNames)`: disable each named component in order. -/
def hideComponents (s : CCState) (names : List String) : CCState :=
  names.foldl disableComponent s

/-- `show()` with the default argument: the name list defaults to
`this.componentNames`, a snapshot array taken before iteration starts. -/
def showAll (s : CCState) : CCState :=
  showComponents s (componentNames s)

/-- `hide()` with the default argument: the name list defaults to
`this.componentNames`, a snapshot array taken before iteration starts. -/
def hideAll (s : CCState) : CCState :=
  hideComponents s (componentNames s)

/-- `visibleComponents` getter: the stored components filtered by live Scene
membership; the filter returns `false` for every component that is neither an
`Entity` nor a `Primitive`. -/
def visibleComponents (s : CCState) : List Component :=
  (s.components.map Prod.snd).filter fun c =>
    match c with
    | Component.entity _ => s.entities.contains c
    | Component.primitive _ => s.scenePrimitives.contains c
    | Component.geometryInstance _ => false

/-- Whether a component is installed in the store matching its kind (the
shared entity store, the scene primitive store, or the static geometry
contribution list). -/
def isInstalled (s : CCState) : Component → Bool
  | Component.entity i => s.entities.contains (Component.entity i)
  | Component.primitive i => s.scenePrimitives.contains (Component.primitive i)
  | Component.geometryInstance i => s.geometries.contains (Component.geometryInstance i)

/-- Modelled from the spec: the object-specific component factory and the
subclass override of `enableComponent` (the satellite component collection)
are not part of the core file under verification; per the spec, `show`
"lazily constructs the Component if absent (via an object-specific factory,
external to the core) then installs it", and referencing a name unknown to
the factory is a no-op.  The factory returns `none` for names it does not
know. -/
def enableComponentLazy (factory : String → Option Component) (s : CCState)
    (name : String) : CCState :=
  let s1 : CCState :=
    if (s.components.lookup name).isSome then s
    else
      match factory name with
      | some c => { s with components := s.components ++ [(name, c)] }
      | none => s
  enableComponent s1 name

/-- Modelled from the spec: `show` on the lazily-constructing subclass. -/
def showLazy (factory : String → Option Component) (s : CCState)
    (names : List String) : CCState :=
  names.foldl (enableComponentLazy factory) s

end CCState

namespace Rebuild

/-!
The class-static batched-primitive rebuild machinery of
`CesiumComponentCollection.recreateGeometryInstancePrimitive`, embedded as a
small-step machine.  The closures registered on `viewer.clock.onTick` become
explicit listeners; one machine step is either an external contribution-set
mutation (the geometry branch of `enableComponent` / `disableComponent`) or
one clock tick, which raises the event on the listeners registered at the
start of the tick, in registration order (a listener added during a tick
first runs on the next tick, matching the length snapshot taken by the
Cesium event loop; the only listener removals are self-removals).
-/

/-- Observable actions, recorded in an append-only log that no transition
reads: `debounceFired` marks one run of the debounce callback body (the 30
pre-ticks elapsed), `clearedEmpty` the empty-contribution-set branch,
`rebuildStarted t` the start of an asynchronous primitive creation at
simulated time `t`, and `installed pid matrix t` the installation of the
finished primitive at time `t`. -/
inductive Action
  | debounceFired
  | clearedEmpty
  | rebuildStarted (t : Int)
  | installed (pid : Nat) (matrix : Option Int) (t : Int)
deriving DecidableEq, Repr

/-- A constructed `Cesium.Primitive` candidate: its identity, the geometry
instances it was built from, and its model matrix — `none` is the default
(identity) matrix, `some t` the inertial-to-fixed rotation computed at
simulated time `t`. -/
structure Prim where
  pid : Nat
  geoms : List Nat
  modelMatrix : Option Int
deriving DecidableEq, Repr

/-- The closure state of the readiness-polling listener: the candidate
primitive and the `lastState` variable used to decide when to nudge the
candidate with an explicit `update` call. -/
structure Creating where
  prim : Prim
  lastState : Int
deriving DecidableEq, Repr

/-- A listener currently registered on `viewer.clock.onTick`: either the
30-tick debounce callback (with its closure counter) or the readiness poll of
an in-flight creation. -/
inductive Listener
  | timer (ticks : Nat)
  | ready (c : Creating)
deriving DecidableEq, Repr

/-- What the frame-driven host supplies on one tick: the simulated clock
time, whether `computeIcrfToFixedMatrix` returns a matrix at that time,
whether the candidate primitive reports `ready`, and the internal progression
state `_state` of the candidate. -/
structure TickInput where
  now : Int
  icrfDefined : Bool
  isReady : Bool
  primState : Int
deriving DecidableEq, Repr

/-- The class-static state of `CesiumComponentCollection` together with the
scene primitive store and the registered tick listeners.  `nextId` numbers
primitive constructions; `log` is observation-only. -/
structure Machine where
  geometries : List Nat
  primitive : Option Prim
  pendingUpdate : Bool
  pendingCreation : Bool
  scene : List Prim
  listeners : List Listener
  nextId : Nat
  log : List Action
deriving DecidableEq, Repr

/-- Run one registered listener for one tick.  Returns the updated machine,
the continuation of the listener (`none` when it removed itself), and the
listeners it newly registered.

For `timer ticks` this is `createPeriodicTickCallback(viewer, 30, body)`
around the debounce body: below 30 the counter just increments; otherwise the
body runs (and the counter resets to 0): if a creation is pending it returns
at once; otherwise it clears `pendingUpdate` and either takes the
empty-contribution-set branch (remove the current primitive, clear it,
request a render — note the body returns here without invoking
`removeCallback`, so the timer stays registered) or starts a creation:
set `pendingCreation`, construct the candidate from the contribution list,
register the readiness listener, and invoke `removeCallback()`.

For `ready c` this is the listener registered inside the creation branch:
while the candidate is not ready it compares `_state` with `lastState`,
recording a changed state and nudging the candidate; once ready it computes
the inertial-to-fixed rotation at the current simulated time (skipping the
model-matrix assignment when the provider returns undefined), removes the old
current primitive from the scene if any, adds the candidate, makes it
current, clears `pendingCreation` and removes itself. -/
def runListener (inp : TickInput) (m : Machine) : Listener → Machine × Option Listener × List Listener
  | Listener.timer ticks =>
    if ticks < 30 then (m, some (Listener.timer (ticks + 1)), [])
    else if m.pendingCreation then
      ({ m with log := m.log ++ [Action.debounceFired] }, some (Listener.timer 0), [])
    else if m.geometries.isEmpty then
      ({ m with pendingUpdate := false
                scene := (match m.primitive with
                          | some p => m.scene.filter (fun q => q != p)
                          | none => m.scene)
                primitive := none
                log := m.log ++ [Action.debounceFired, Action.clearedEmpty] },
       some (Listener.timer 0), [])
    else
      ({ m with pendingUpdate := false
                pendingCreation := true
                nextId := m.nextId + 1
                log := m.log ++ [Action.debounceFired, Action.rebuildStarted inp.now] },
       none, [Listener.ready ⟨⟨m.nextId, m.geometries, none⟩, -1⟩])
  | Listener.ready c =>
    if inp.isReady then
      let prim : Prim :=
        if inp.icrfDefined then { c.prim with modelMatrix := some inp.now } else c.prim
      ({ m with scene := (match m.primitive with
                          | some p => m.scene.filter (fun q => q != p)
                          | none => m.scene) ++ [prim]
                primitive := some prim
                pendingCreation := false
                log := m.log ++ [Action.installed prim.pid prim.modelMatrix inp.now] },
       none, [])
    else if inp.primState != c.lastState then
      (m, some (Listener.ready { c with lastState := inp.primState }), [])
    else
      (m, some (Listener.ready c), [])

/-- Raise the tick event over the pending listeners in registration order,
accumulating the surviving listeners (in place) and the newly added ones
(appended at the end, active from the next tick). -/
def runListeners (inp : TickInput) : List Listener → Machine → List Listener → List Listener → Machine
  | [], m, survivors, added => { m with listeners := survivors ++ added }
  | l :: rest, m, survivors, added =>
    match runListener inp m l with
    | (m1, self, new) => runListeners inp rest m1 (survivors ++ self.toList) (added ++ new)

/-- One clock tick. -/
def tick (m : Machine) (inp : TickInput) : Machine :=
  runListeners inp m.listeners m [] []

/-- The guard of `recreateGeometryInstancePrimitive`: when no debounced
update is pending, mark one pending and register the 30-tick debounce
callback; otherwise do nothing. -/
def recreate (m : Machine) : Machine :=
  if m.pendingUpdate then m
  else { m with pendingUpdate := true, listeners := m.listeners ++ [Listener.timer 0] }

/-- An external event: a contribution-set mutation (the geometry branches of
`enableComponent` / `disableComponent`, each followed by the call to
`recreateGeometryInstancePrimitive`) or one clock tick. -/
inductive Ev
  | enable (g : Nat)
  | disable (g : Nat)
  | tick (inp : TickInput)
deriving DecidableEq, Repr

/-- Step the machine by one external event. -/
def stepEv (m : Machine) : Ev → Machine
  | Ev.enable g => recreate { m with geometries := m.geometries ++ [g] }
  | Ev.disable g => recreate { m with geometries := m.geometries.filter (fun x => x != g) }
  | Ev.tick inp => tick m inp

/-- Run a sequence of external events. -/
def run (m : Machine) (evs : List Ev) : Machine :=
  evs.foldl stepEv m

/-- The initial class-static state: no contributions, no current primitive,
no pending flags, no listeners. -/
def init : Machine :=
  ⟨[], none, false, false, [], [], 0, []⟩

/-- Whether a listener is an in-flight-creation readiness poll. -/
def Listener.isPoll : Listener → Bool
  | Listener.timer _ => false
  | Listener.ready _ => true

/-- Number of in-flight creations among the registered listeners. -/
def pollCount (ls : List Listener) : Nat :=
  (ls.filter Listener.isPoll).length

/-- The single-flight invariant: at most one creation is in flight, and the
`primitivePendingCreation` flag holds exactly when one is. -/
def SingleFlight (m : Machine) : Prop :=
  pollCount m.listeners ≤ 1 ∧ (m.pendingCreation = true ↔ pollCount m.listeners = 1)

/-- Whether an action records the start of a primitive creation. -/
def Action.isRebuildStart : Action → Bool
  | Action.rebuildStarted _ => true
  | _ => false

end Rebuild

/-- The listener pair registered by
`setTrackedOnTickCallback(onTickCallback, onUntrackCallback)`: a per-tick
listener and a `trackedEntityChanged` listener whose firing removes both
listeners and runs the untrack callback.  `tickCount` and `untrackCount`
record how often the two user callbacks have run. -/
structure TrackReg where
  tickActive : Bool
  changeActive : Bool
  tickCount : Nat
  untrackCount : Nat
deriving DecidableEq, Repr

/-- An event relevant to the registration: a clock tick or a firing of the
`trackedEntityChanged` event (for any reason). -/
inductive TrackEv
  | tick
  | trackedChanged
deriving DecidableEq, Repr

/-- One event step: a tick runs the per-tick callback while its listener is
registered; a tracked-entity change, while its listener is registered,
removes both listeners and runs the untrack callback once. -/
def trackStep (s : TrackReg) : TrackEv → TrackReg
  | TrackEv.tick => if s.tickActive then { s with tickCount := s.tickCount + 1 } else s
  | TrackEv.trackedChanged =>
    if s.changeActive then
      { s with tickActive := false, changeActive := false,
               untrackCount := s.untrackCount + 1 }
    else s

/-- Run a sequence of events. -/
def trackRun (s : TrackReg) (evs : List TrackEv) : TrackReg :=
  evs.foldl trackStep s

/-- The state immediately after `setTrackedOnTickCallback` registers both
listeners. -/
def trackInit : TrackReg :=
  ⟨true, true, 0, 0⟩

/-- A lazy collection holding one geometry component, not yet contributed. -/
def cc6 : CCState :=
  ⟨[("Orbit", Component.geometryInstance 0)], true, none, [], [], []⟩

/-- A lazy collection holding an entity and a geometry component, both
installed. -/
def cc9 : CCState :=
  ⟨[("Point", Component.entity 1), ("Orbit", Component.geometryInstance 2)], true, none,
   [Component.entity 1], [], [Component.geometryInstance 2]⟩

/-- A collection storing a geometry component whose contribution is in the
static geometry list (its batched primitive would be installed in the
scene). -/
def cc10 : CCState :=
  ⟨[("Orbit", Component.geometryInstance 4)], true, none, [], [],
   [Component.geometryInstance 4]⟩

/-- An empty lazy collection. -/
def cc4 : CCState :=
  ⟨[], true, none, [], [], []⟩

/-- A sample object-specific component factory knowing the single name
`Point`. -/
def demoFactory : String → Option Component :=
  fun n => if n = "Point" then some (Component.entity 3) else none

namespace Rebuild

/-- A quiet tick at simulated time 0: frame transform available, candidate
not ready. -/
def quietTick : TickInput := ⟨0, true, false, 0⟩

/-- A tick at simulated time 100 on which the in-flight candidate reports
ready and the frame transform is available. -/
def readyTick : TickInput := ⟨100, true, true, 0⟩

/-- A tick at simulated time 50 on which the candidate reports ready but the
frame-transform provider returns undefined. -/
def noIcrfTick : TickInput := ⟨50, false, true, 0⟩

/-- Trace for the follow-up counterexample: contribute geometry 7, let the
debounce fire and start a creation, empty the contribution set while that
creation is in flight, complete the creation, then run 61 quiet ticks with no
further mutation. -/
def followupTrace : List Ev :=
  [Ev.enable 7] ++ List.replicate 31 (Ev.tick quietTick) ++ [Ev.disable 7]
    ++ [Ev.tick readyTick] ++ List.replicate 61 (Ev.tick quietTick)

/-- Trace for the debounce counterexample: contribute geometry 1 and remove
it inside the same debounce window, then run 62 quiet ticks with no further
mutation. -/
def debounceTrace : List Ev :=
  [Ev.enable 1, Ev.disable 1] ++ List.replicate 62 (Ev.tick quietTick)

/-- A machine with one in-flight creation being polled and nothing else
registered. -/
def creatingM : Machine :=
  ⟨[5], none, false, true, [], [Listener.ready ⟨⟨0, [5], none⟩, -1⟩], 1, []⟩

/-- A machine whose armed debounce timer is about to run its body, with a
nonempty contribution set and no creation in flight. -/
def fireM : Machine :=
  ⟨[7], none, true, false, [], [Listener.timer 30], 0, []⟩

/-- A machine whose armed debounce timer is about to run its body, with an
empty contribution set, no creation in flight, and an installed current
primitive. -/
def fireEmptyM : Machine :=
  ⟨[], some ⟨0, [7], some 3⟩, true, false, [⟨0, [7], some 3⟩], [Listener.timer 30], 1, []⟩

end Rebuild

namespace CCState

lemma disableComponent_lazy_eq (s : CCState) (n : String) :
    (disableComponent s n).lazy = s.lazy := by
  unfold disableComponent
  cases h : s.components.lookup n with
  | none => rfl
  | some c => cases c <;> dsimp only <;> split <;> rfl

lemma disableComponent_components_lazy (s : CCState) (n : String) (h : s.lazy = true) :
    (disableComponent s n).components = s.components.filter (fun p => p.1 != n) := by
  unfold disableComponent
  cases hl : s.components.lookup n with
  | none =>
    have hall := List.lookup_eq_none_iff.mp hl
    dsimp only
    rw [List.filter_eq_self.mpr]
    intro p hp
    have := hall p hp
    simp only [bne_iff_ne] at this ⊢
    exact fun hcon => this hcon.symm
  | some c =>
    cases c <;> dsimp only <;> rw [if_pos (by simpa using h)]

lemma hideComponents_clears : ∀ (ns : List String) (s : CCState), s.lazy = true →
    (∀ p ∈ s.components, p.1 ∈ ns) → (hideComponents s ns).components = [] := by
  intro ns
  induction ns with
  | nil =>
    intro s _ hall
    cases hcomp : s.components with
    | nil => exact hcomp
    | cons p t =>
      exact absurd (hall p (by rw [hcomp]; exact List.mem_cons_self p t)) (by simp)
  | cons n rest ih =>
    intro s h hall
    show (hideComponents (disableComponent s n) rest).components = []
    apply ih
    · rw [disableComponent_lazy_eq]; exact h
    · intro p hp
      rw [disableComponent_components_lazy s n h] at hp
      obtain ⟨hpmem, hpne⟩ := List.mem_filter.mp hp
      rcases List.mem_cons.mp (hall p hpmem) with heq | h2
      · exact absurd heq (by simpa using hpne)
      · exact h2

lemma enableComponent_components (s : CCState) (n : String) :
    (enableComponent s n).components = s.components := by
  unfold enableComponent
  cases h : s.components.lookup n with
  | none => rfl
  | some c =>
    cases c <;> dsimp only <;> (first | (split <;> split <;> rfl) | (split <;> rfl))

lemma enableComponent_installs (s : CCState) (n : String) (c : Component)
    (h : s.components.lookup n = some c) :
    isInstalled (enableComponent s n) c = true := by
  unfold enableComponent
  rw [h]
  cases c <;> dsimp only <;> (repeat' split) <;> simp_all [isInstalled]

end CCState

/-- Claim C9: calling `hide()` with no arguments on a lazy collection
disables and deletes every stored component exactly once even though entries
are deleted from the component map during the pass; iteration is over a
snapshot of the component names taken at call time, so no component is
skipped, and afterwards `componentNames` is empty and the `created` getter
returns `false`. -/
theorem hide_default_clears (s : CCState) (hlazy : s.lazy = true) :
    (CCState.hideAll s).components = []
  ∧ CCState.componentNames (CCState.hideAll s) = []
  ∧ CCState.created (CCState.hideAll s) = false := by
  have h := CCState.hideComponents_clears (CCState.componentNames s) s hlazy
    (fun p hp => List.mem_map_of_mem Prod.fst hp)
  refine ⟨h, ?_, ?_⟩
  · show (CCState.hideAll s).components.map Prod.fst = []
    rw [show CCState.hideAll s = CCState.hideComponents s (CCState.componentNames s) from rfl, h]
    rfl
  · show decide (0 < ((CCState.hideAll s).components.map Prod.fst).length) = false
    rw [show CCState.hideAll s = CCState.hideComponents s (CCState.componentNames s) from rfl, h]
    rfl

/-- Witness for C9 at a concrete two-component lazy collection. -/
theorem hide_default_clears_witness :
    cc9.lazy = true
  ∧ ((CCState.hideAll cc9).components = []
     ∧ CCState.componentNames (CCState.hideAll cc9) = []
     ∧ CCState.created (CCState.hideAll cc9) = false) :=
  ⟨rfl, hide_default_clears cc9 rfl⟩

/-- Claim C10: a stored `GeometryInstance` component is never included in the
result of the `visibleComponents` getter (whatever the Scene holds), and
every component reported visible is an `Entity` contained in the entity store
or a `Primitive` contained in the scene primitive store. -/
theorem visible_excludes_geometry (s : CCState) (g : Nat) :
    (CCState.visibleComponents s).contains (Component.geometryInstance g) = false
  ∧ ∀ c ∈ CCState.visibleComponents s,
      (∃ i, c = Component.entity i ∧ s.entities.contains c = true)
    ∨ (∃ i, c = Component.primitive i ∧ s.scenePrimitives.contains c = true) := by
  constructor
  · rw [Bool.eq_false_iff]
    intro hc
    have hm : Component.geometryInstance g ∈ CCState.visibleComponents s :=
      List.elem_iff.mp hc
    have := (List.mem_filter.mp hm).2
    simp at this
  · intro c hc
    obtain ⟨hmem, hpred⟩ := List.mem_filter.mp hc
    cases c with
    | entity i => exact Or.inl ⟨i, rfl, by simpa using hpred⟩
    | primitive i => exact Or.inr ⟨i, rfl, by simpa using hpred⟩
    | geometryInstance i => simp at hpred

/-- Witness for C10 at a collection whose geometry contribution is staged in
the batch. -/
theorem visible_excludes_geometry_witness :
    (CCState.visibleComponents cc10).contains (Component.geometryInstance 4) = false
  ∧ ∀ c ∈ CCState.visibleComponents cc10,
      (∃ i, c = Component.entity i ∧ cc10.entities.contains c = true)
    ∨ (∃ i, c = Component.primitive i ∧ cc10.scenePrimitives.contains c = true) :=
  visible_excludes_geometry cc10 4

/-- Counterexample to claim C6 as stated: enabling the already-contributed
geometry component a second time does not leave the contribution set
unchanged; after `show; show` the batch contains the geometry twice, not
exactly once. -/
theorem enable_geometry_duplicates_cex :
    (CCState.showComponents (CCState.showComponents cc6 ["Orbit"]) ["Orbit"]).geometries.count
        (Component.geometryInstance 0) = 2
  ∧ (CCState.showComponents (CCState.showComponents cc6 ["Orbit"]) ["Orbit"]).geometries
      ≠ (CCState.showComponents cc6 ["Orbit"]).geometries := by
  decide

/-- Claim C6 (amended): the contribution list does not have set semantics:
enabling a geometry component always appends it to the static `geometries`
list, even when it is already contributed, so `enableComponent` is not
idempotent for geometry components and after `show; show` the batch contains
the geometry exactly twice.  (Entity and primitive components are guarded by
a containment check and are idempotent.) -/
theorem enable_geometry_appends (s : CCState) (n : String) (g : Nat)
    (h : s.components.lookup n = some (Component.geometryInstance g)) :
    (CCState.enableComponent s n).geometries = s.geometries ++ [Component.geometryInstance g]
  ∧ (CCState.showComponents (CCState.showComponents s [n]) [n]).geometries.count
        (Component.geometryInstance g)
      = s.geometries.count (Component.geometryInstance g) + 2 := by
  have happ : ∀ t : CCState, t.components.lookup n = some (Component.geometryInstance g) →
      (CCState.enableComponent t n).geometries
        = t.geometries ++ [Component.geometryInstance g] := by
    intro t ht
    unfold CCState.enableComponent
    rw [ht]
    dsimp only
    split <;> rfl
  refine ⟨happ s h, ?_⟩
  have hshow : ∀ t : CCState, CCState.showComponents t [n] = CCState.enableComponent t n :=
    fun t => rfl
  have hpres : (CCState.enableComponent s n).components.lookup n
      = some (Component.geometryInstance g) := by
    rw [CCState.enableComponent_components]; exact h
  rw [hshow, hshow, happ _ hpres, happ s h]
  simp

/-- Witness for the amended C6 at a concrete collection. -/
theorem enable_geometry_appends_witness :
    cc6.components.lookup "Orbit" = some (Component.geometryInstance 0)
  ∧ ((CCState.enableComponent cc6 "Orbit").geometries
       = cc6.geometries ++ [Component.geometryInstance 0]
     ∧ (CCState.showComponents (CCState.showComponents cc6 ["Orbit"]) ["Orbit"]).geometries.count
         (Component.geometryInstance 0)
       = cc6.geometries.count (Component.geometryInstance 0) + 2) :=
  ⟨by decide, enable_geometry_appends cc6 "Orbit" 0 (by decide)⟩

/-- Claim C4: for a name known to the object-specific factory, `show` lazily
constructs the component if absent and installs it; afterwards the collection
holds a component under that name (modelled from the spec: the factory and
the lazily-constructing `enableComponent` override live outside the core
file). -/
theorem show_constructs_and_installs (factory : String → Option Component) (s : CCState)
    (n : String) (c : Component) (hf : factory n = some c) :
    ((CCState.showLazy factory s [n]).components.lookup n).isSome = true
  ∧ ∃ c', (CCState.showLazy factory s [n]).components.lookup n = some c'
        ∧ CCState.isInstalled (CCState.showLazy factory s [n]) c' = true := by
  have hshow : CCState.showLazy factory s [n] = CCState.enableComponentLazy factory s n := rfl
  rw [hshow]
  unfold CCState.enableComponentLazy
  cases hl : s.components.lookup n with
  | some c0 =>
    simp only [hl, Option.isSome_some, if_true]
    refine ⟨?_, c0, ?_, CCState.enableComponent_installs s n c0 hl⟩
    · rw [CCState.enableComponent_components, hl]; rfl
    · rw [CCState.enableComponent_components]; exact hl
  | none =>
    simp only [hl, Option.isSome_none, Bool.false_eq_true, if_false, hf]
    have hlk : (s.components ++ [(n, c)]).lookup n = some c := by
      rw [List.lookup_append, hl]
      simp
    refine ⟨?_, c, ?_, CCState.enableComponent_installs _ n c hlk⟩
    · rw [CCState.enableComponent_components]; exact hlk ▸ rfl
    · rw [CCState.enableComponent_components]; exact hlk

/-- Witness for C4 at an empty collection and a factory knowing `Point`. -/
theorem show_constructs_and_installs_witness :
    demoFactory "Point" = some (Component.entity 3)
  ∧ (((CCState.showLazy demoFactory cc4 ["Point"]).components.lookup "Point").isSome = true
     ∧ ∃ c', (CCState.showLazy demoFactory cc4 ["Point"]).components.lookup "Point" = some c'
           ∧ CCState.isInstalled (CCState.showLazy demoFactory cc4 ["Point"]) c' = true) :=
  ⟨by decide, show_constructs_and_installs demoFactory cc4 "Point" (Component.entity 3) (by decide)⟩

namespace CesiumCallbackHelper

lemma periodicTickFireCount_succ (n : Nat) :
    ∀ j, j ≤ n → ∀ m : Nat,
      periodicTickFireCount n (n - j) (j + 1 + m) = 1 + periodicTickFireCount n 0 m := by
  intro j
  induction j with
  | zero =>
    intro _ m
    have h1 : 0 + 1 + m = m + 1 := by omega
    rw [h1]
    simp [periodicTickFireCount, periodicTickStep]
  | succ j ih =>
    intro hj m
    have h1 : j + 1 + 1 + m = (j + 1 + m) + 1 := by omega
    rw [h1]
    have hlt : n - (j + 1) < n := by omega
    have h2 : n - (j + 1) + 1 = n - j := by omega
    simp only [periodicTickFireCount, periodicTickStep, if_pos hlt, h2]
    simpa using ih (by omega) m

lemma periodicTickFireCount_period (n m : Nat) :
    periodicTickFireCount n 0 (n + 1 + m) = 1 + periodicTickFireCount n 0 m := by
  have h := periodicTickFireCount_succ n n (Nat.le_refl n) m
  simpa [Nat.sub_self] using h

lemma periodicTime_no_refire (r t : ℚ) (hr : 0 < r) :
    ∀ k : Nat, periodicTimeFireCount r t (List.replicate k t) = 0 := by
  intro k
  induction k with
  | zero => rfl
  | succ k ih =>
    show periodicTimeFireCount r t (t :: List.replicate k t) = 0
    have habs : |t - t| < r := by simpa using hr
    simp only [periodicTimeFireCount, periodicTimeStep, if_pos habs]
    simpa using ih

end CesiumCallbackHelper

/-- Claim C5: the claim (and the function doc) say the callback runs once
every `refreshRate` frame-ticks; the code actually spends `refreshRate` ticks
incrementing the counter and fires on the next one, so the callback runs once
every `refreshRate + 1` ticks (for the 30-tick debounce registration, the
first firing is on tick 31).  The counter does reset to 0 on each firing. -/
theorem periodic_tick_period_evidence :
    (∀ n k : Nat, CesiumCallbackHelper.periodicTickFireCount n 0 (k * (n + 1)) = k)
  ∧ CesiumCallbackHelper.periodicTickFireCount 30 0 30 = 0
  ∧ CesiumCallbackHelper.periodicTickFireCount 30 0 31 = 1
  ∧ CesiumCallbackHelper.periodicTickFireCount 30 0 62 = 2
  ∧ (∀ n : Nat, CesiumCallbackHelper.periodicTickStep n n = (0, true)) := by
  refine ⟨?_, by decide, by decide, by decide, ?_⟩
  · intro n k
    induction k with
    | zero => simp [CesiumCallbackHelper.periodicTickFireCount]
    | succ k ih =>
      have h1 : (k + 1) * (n + 1) = n + 1 + k * (n + 1) := by ring
      rw [h1, CesiumCallbackHelper.periodicTickFireCount_period, ih]
      omega
  · intro n
    simp [CesiumCallbackHelper.periodicTickStep]

/-- Claim C7: the duration-based periodic callback fires on a tick exactly
when the absolute difference between the current and the reference simulated
time reaches the threshold (robust to the clock running backward); on firing
the reference timestamp is reset to the current time, so a single forward
jump larger than the threshold produces exactly one firing even over a
following burst of ticks with the same timestamp. -/
theorem periodic_time_threshold (r last t : ℚ) (k : Nat) (hr : 0 < r) :
    ((CesiumCallbackHelper.periodicTimeStep r last t).2 = true ↔ r ≤ |t - last|)
  ∧ ((CesiumCallbackHelper.periodicTimeStep r last t).2 = true →
      (CesiumCallbackHelper.periodicTimeStep r last t).1 = t)
  ∧ (r ≤ |t - last| →
      CesiumCallbackHelper.periodicTimeFireCount r last (t :: List.replicate k t) = 1) := by
  by_cases hlt : |t - last| < r
  · refine ⟨?_, ?_, ?_⟩
    · simp only [CesiumCallbackHelper.periodicTimeStep, if_pos hlt]
      simpa using hlt
    · simp [CesiumCallbackHelper.periodicTimeStep, if_pos hlt]
    · intro hle
      exact absurd hle (not_le.mpr hlt)
  · have hle : r ≤ |t - last| := not_lt.mp hlt
    refine ⟨?_, ?_, ?_⟩
    · simp only [CesiumCallbackHelper.periodicTimeStep, if_neg hlt]
      simpa using hle
    · intro _
      simp [CesiumCallbackHelper.periodicTimeStep, if_neg hlt]
    · intro _
      simp only [CesiumCallbackHelper.periodicTimeFireCount,
        CesiumCallbackHelper.periodicTimeStep, if_neg hlt]
      simpa using CesiumCallbackHelper.periodicTime_no_refire r t hr k

/-- Witness for C7: threshold 1 second, reference time 0, a tick at time 5
followed by two more ticks at time 5 fires exactly once. -/
theorem periodic_time_threshold_witness :
    (0 : ℚ) < 1
  ∧ (((CesiumCallbackHelper.periodicTimeStep 1 0 5).2 = true ↔ (1 : ℚ) ≤ |5 - 0|)
     ∧ ((CesiumCallbackHelper.periodicTimeStep 1 0 5).2 = true →
         (CesiumCallbackHelper.periodicTimeStep 1 0 5).1 = 5)
     ∧ ((1 : ℚ) ≤ |5 - 0| →
         CesiumCallbackHelper.periodicTimeFireCount 1 0 (5 :: List.replicate 2 5) = 1)) :=
  ⟨by norm_num, periodic_time_threshold 1 0 5 2 (by norm_num)⟩

lemma trackStep_dead (s : TrackReg) (e : TrackEv) (h1 : s.tickActive = false)
    (h2 : s.changeActive = false) : trackStep s e = s := by
  cases e <;> simp [trackStep, h1, h2]

lemma trackRun_dead (evs : List TrackEv) : ∀ s : TrackReg, s.tickActive = false →
    s.changeActive = false → trackRun s evs = s := by
  induction evs with
  | nil => intro s _ _; rfl
  | cons e rest ih =>
    intro s h1 h2
    show trackRun (trackStep s e) rest = s
    rw [trackStep_dead s e h1 h2]
    exact ih s h1 h2

lemma trackRun_alive (evs : List TrackEv) : ∀ s : TrackReg, s.tickActive = true →
    s.changeActive = true → TrackEv.trackedChanged ∉ evs →
    (trackRun s evs).tickActive = true ∧ (trackRun s evs).changeActive = true
    ∧ (trackRun s evs).untrackCount = s.untrackCount := by
  induction evs with
  | nil => intro s h1 h2 _; exact ⟨h1, h2, rfl⟩
  | cons e rest ih =>
    intro s h1 h2 hno
    cases e with
    | tick =>
      have hst : trackStep s TrackEv.tick = { s with tickCount := s.tickCount + 1 } := by
        simp [trackStep, h1]
      have hrun : trackRun s (TrackEv.tick :: rest)
          = trackRun { s with tickCount := s.tickCount + 1 } rest := by
        show trackRun (trackStep s TrackEv.tick) rest = _
        rw [hst]
      rw [hrun]
      refine ih _ ?_ ?_ (fun hm => hno (List.mem_cons_of_mem _ hm))
      · simpa using h1
      · simpa using h2
    | trackedChanged => exact absurd (List.mem_cons_self _ _) hno

/-- The invariant that the untrack callback runs at most once: while the
change listener is registered it has never run; once deregistered it has run
at most once. -/
def TrackInv (s : TrackReg) : Prop :=
  (s.changeActive = true ∧ s.untrackCount = 0)
  ∨ (s.changeActive = false ∧ s.untrackCount ≤ 1)

lemma trackStep_inv (s : TrackReg) (e : TrackEv) (h : TrackInv s) :
    TrackInv (trackStep s e) := by
  cases e with
  | tick =>
    cases h1 : s.tickActive <;> simpa [trackStep, h1, TrackInv] using h
  | trackedChanged =>
    cases h2 : s.changeActive
    · simpa [trackStep, h2, TrackInv] using h
    · rcases h with ⟨_, h0⟩ | ⟨hca, _⟩
      · simp [trackStep, h2, TrackInv, h0]
      · rw [h2] at hca; cases hca

lemma trackRun_inv (evs : List TrackEv) : ∀ s : TrackReg, TrackInv s →
    TrackInv (trackRun s evs) := by
  induction evs with
  | nil => intro s h; exact h
  | cons e rest ih => intro s h; exact ih (trackStep s e) (trackStep_inv s e h)

/-- Claim C8: for a registration made via `setTrackedOnTickCallback`, when
the tracked-entity-changed event first fires after registration, both
listeners remove themselves and the untrack callback runs exactly once; no
per-tick invocation from that registration occurs after the change event, and
the untrack callback never runs more than once over any event sequence. -/
theorem tracked_callback_self_cancels (pre post : List TrackEv)
    (hpre : TrackEv.trackedChanged ∉ pre) :
    (trackRun trackInit (pre ++ TrackEv.trackedChanged :: post)).untrackCount = 1
  ∧ (trackRun trackInit (pre ++ TrackEv.trackedChanged :: post)).tickActive = false
  ∧ (trackRun trackInit (pre ++ TrackEv.trackedChanged :: post)).changeActive = false
  ∧ (trackRun trackInit (pre ++ TrackEv.trackedChanged :: post)).tickCount
      = (trackRun trackInit pre).tickCount
  ∧ ∀ evs : List TrackEv, (trackRun trackInit evs).untrackCount ≤ 1 := by
  obtain ⟨ht, hc, hu⟩ := trackRun_alive pre trackInit rfl rfl hpre
  have hsplit : trackRun trackInit (pre ++ TrackEv.trackedChanged :: post)
      = trackRun (trackStep (trackRun trackInit pre) TrackEv.trackedChanged) post := by
    simp [trackRun, List.foldl_append]
  have hstep : trackStep (trackRun trackInit pre) TrackEv.trackedChanged
      = ⟨false, false, (trackRun trackInit pre).tickCount,
         (trackRun trackInit pre).untrackCount + 1⟩ := by
    simp [trackStep, hc]
  have hdead : trackRun (trackStep (trackRun trackInit pre) TrackEv.trackedChanged) post
      = trackStep (trackRun trackInit pre) TrackEv.trackedChanged := by
    apply trackRun_dead
    · rw [hstep]
    · rw [hstep]
  rw [hsplit, hdead, hstep]
  refine ⟨by rw [hu]; rfl, rfl, rfl, rfl, ?_⟩
  intro evs
  have h := trackRun_inv evs trackInit (Or.inl ⟨rfl, rfl⟩)
  rcases h with ⟨_, h0⟩ | ⟨_, h1⟩
  · omega
  · exact h1

/-- Witness for C8: a tick, then a tracked-entity change, then another tick
and a second change event: exactly one untrack firing, no tick counted after
the change. -/
theorem tracked_callback_self_cancels_witness :
    TrackEv.trackedChanged ∉ [TrackEv.tick]
  ∧ ((trackRun trackInit ([TrackEv.tick] ++ TrackEv.trackedChanged
        :: [TrackEv.tick, TrackEv.trackedChanged])).untrackCount = 1
     ∧ (trackRun trackInit ([TrackEv.tick] ++ TrackEv.trackedChanged
          :: [TrackEv.tick, TrackEv.trackedChanged])).tickActive = false
     ∧ (trackRun trackInit ([TrackEv.tick] ++ TrackEv.trackedChanged
          :: [TrackEv.tick, TrackEv.trackedChanged])).changeActive = false
     ∧ (trackRun trackInit ([TrackEv.tick] ++ TrackEv.trackedChanged
          :: [TrackEv.tick, TrackEv.trackedChanged])).tickCount
        = (trackRun trackInit [TrackEv.tick]).tickCount
     ∧ ∀ evs : List TrackEv, (trackRun trackInit evs).untrackCount ≤ 1) :=
  ⟨by decide, tracked_callback_self_cancels [TrackEv.tick] [TrackEv.tick, TrackEv.trackedChanged]
    (by decide)⟩

namespace Rebuild

@[simp] lemma pollCount_nil : pollCount [] = 0 := rfl

@[simp] lemma pollCount_cons_timer (t : Nat) (ls : List Listener) :
    pollCount (Listener.timer t :: ls) = pollCount ls := by
  simp [pollCount, Listener.isPoll]

@[simp] lemma pollCount_cons_ready (c : Creating) (ls : List Listener) :
    pollCount (Listener.ready c :: ls) = pollCount ls + 1 := by
  simp [pollCount, Listener.isPoll]

@[simp] lemma pollCount_append (a b : List Listener) :
    pollCount (a ++ b) = pollCount a + pollCount b := by
  simp [pollCount, List.filter_append]

lemma runListeners_singleFlight (inp : TickInput) :
    ∀ (pending : List Listener) (m : Machine) (survivors added : List Listener),
      pollCount survivors + pollCount pending + pollCount added ≤ 1 →
      (m.pendingCreation = true ↔ pollCount survivors + pollCount pending + pollCount added = 1) →
      SingleFlight (runListeners inp pending m survivors added) := by
  intro pending
  induction pending with
  | nil =>
    intro m survivors added h1 h2
    unfold runListeners SingleFlight
    constructor
    · simpa using h1
    · simpa using h2
  | cons l rest ih =>
    intro m survivors added h1 h2
    cases l with
    | timer t =>
      simp only [pollCount_cons_timer] at h1 h2
      by_cases h30 : t < 30
      · simp only [runListeners, runListener, if_pos h30, Option.toList_some, List.append_nil]
        refine ih _ _ _ ?_ ?_
        · simpa using h1
        · simpa using h2
      · cases hpc : m.pendingCreation with
        | true =>
          rw [hpc] at h2
          simp only [true_iff] at h2
          simp [runListeners, runListener, h30, hpc]
          refine ih _ _ _ ?_ ?_
          · try simp only [eq_self_iff_true, true_iff, Bool.false_eq_true, false_iff,
              pollCount_append, pollCount_cons_timer, pollCount_cons_ready, pollCount_nil]
            omega
          · try simp only [eq_self_iff_true, true_iff, Bool.false_eq_true, false_iff,
              pollCount_append, pollCount_cons_timer, pollCount_cons_ready, pollCount_nil] at h2
            try simp only [eq_self_iff_true, true_iff, Bool.false_eq_true, false_iff,
              pollCount_append, pollCount_cons_timer, pollCount_cons_ready, pollCount_nil]
            omega
        | false =>
          rw [hpc] at h2
          simp only [Bool.false_eq_true, false_iff] at h2
          cases hemp : m.geometries.isEmpty with
          | true =>
            simp [runListeners, runListener, h30, hpc, hemp]
            refine ih _ _ _ ?_ ?_
            · try simp only [eq_self_iff_true, true_iff, Bool.false_eq_true, false_iff,
              pollCount_append, pollCount_cons_timer, pollCount_cons_ready, pollCount_nil]
              omega
            · try simp only [eq_self_iff_true, true_iff, Bool.false_eq_true, false_iff,
              pollCount_append, pollCount_cons_timer, pollCount_cons_ready, pollCount_nil] at h2
              try simp only [eq_self_iff_true, true_iff, Bool.false_eq_true, false_iff,
              pollCount_append, pollCount_cons_timer, pollCount_cons_ready, pollCount_nil]
              omega
          | false =>
            simp [runListeners, runListener, h30, hpc, hemp]
            refine ih _ _ _ ?_ ?_
            · try simp only [eq_self_iff_true, true_iff, Bool.false_eq_true, false_iff,
              pollCount_append, pollCount_cons_timer, pollCount_cons_ready, pollCount_nil]
              omega
            · try simp only [eq_self_iff_true, true_iff, Bool.false_eq_true, false_iff,
              pollCount_append, pollCount_cons_timer, pollCount_cons_ready, pollCount_nil] at h2
              try simp only [eq_self_iff_true, true_iff, Bool.false_eq_true, false_iff,
              pollCount_append, pollCount_cons_timer, pollCount_cons_ready, pollCount_nil]
              omega
    | ready c =>
      simp only [pollCount_cons_ready] at h1 h2
      cases hrd : inp.isReady with
      | true =>
        simp [runListeners, runListener, hrd]
        refine ih _ _ _ ?_ ?_
        · try simp only [eq_self_iff_true, true_iff, Bool.false_eq_true, false_iff,
              pollCount_append, pollCount_cons_timer, pollCount_cons_ready, pollCount_nil]
          omega
        · try simp only [eq_self_iff_true, true_iff, Bool.false_eq_true, false_iff,
              pollCount_append, pollCount_cons_timer, pollCount_cons_ready, pollCount_nil] at h2
          try simp only [eq_self_iff_true, true_iff, Bool.false_eq_true, false_iff,
              pollCount_append, pollCount_cons_timer, pollCount_cons_ready, pollCount_nil]
          omega
      | false =>
        cases hne : inp.primState != c.lastState with
        | true =>
          simp [runListeners, runListener, hrd, hne]
          refine ih _ _ _ ?_ ?_
          · try simp only [eq_self_iff_true, true_iff, Bool.false_eq_true, false_iff,
              pollCount_append, pollCount_cons_timer, pollCount_cons_ready, pollCount_nil]
            omega
          · cases hpcb : m.pendingCreation with
            | true =>
              rw [hpcb] at h2
              simp only [eq_self_iff_true, true_iff, Bool.false_eq_true, false_iff,
              pollCount_append, pollCount_cons_timer, pollCount_cons_ready, pollCount_nil] at h2 ⊢
              omega
            | false =>
              rw [hpcb] at h2
              simp only [eq_self_iff_true, true_iff, Bool.false_eq_true, false_iff,
              pollCount_append, pollCount_cons_timer, pollCount_cons_ready, pollCount_nil] at h2 ⊢
              omega
        | false =>
          simp [runListeners, runListener, hrd, hne]
          refine ih _ _ _ ?_ ?_
          · try simp only [eq_self_iff_true, true_iff, Bool.false_eq_true, false_iff,
              pollCount_append, pollCount_cons_timer, pollCount_cons_ready, pollCount_nil]
            omega
          · cases hpcb : m.pendingCreation with
            | true =>
              rw [hpcb] at h2
              simp only [eq_self_iff_true, true_iff, Bool.false_eq_true, false_iff,
              pollCount_append, pollCount_cons_timer, pollCount_cons_ready, pollCount_nil] at h2 ⊢
              omega
            | false =>
              rw [hpcb] at h2
              simp only [eq_self_iff_true, true_iff, Bool.false_eq_true, false_iff,
              pollCount_append, pollCount_cons_timer, pollCount_cons_ready, pollCount_nil] at h2 ⊢
              omega

end Rebuild

namespace Rebuild

lemma tick_singleFlight (m : Machine) (inp : TickInput) (h : SingleFlight m) :
    SingleFlight (tick m inp) := by
  obtain ⟨h1, h2⟩ := h
  unfold tick
  apply runListeners_singleFlight
  · simpa using h1
  · simpa using h2

lemma stepEv_singleFlight (m : Machine) (e : Ev) (h : SingleFlight m) :
    SingleFlight (stepEv m e) := by
  obtain ⟨h1, h2⟩ := h
  cases e with
  | tick inp => exact tick_singleFlight m inp ⟨h1, h2⟩
  | enable g =>
    show SingleFlight (recreate { m with geometries := m.geometries ++ [g] })
    unfold recreate
    cases hpu : m.pendingUpdate <;> simp [hpu]
    · exact ⟨by simpa using h1, by simpa using h2⟩
    · exact ⟨by simpa using h1, by simpa using h2⟩
  | disable g =>
    show SingleFlight (recreate { m with geometries := m.geometries.filter (fun x => x != g) })
    unfold recreate
    cases hpu : m.pendingUpdate <;> simp [hpu]
    · exact ⟨by simpa using h1, by simpa using h2⟩
    · exact ⟨by simpa using h1, by simpa using h2⟩

lemma run_singleFlight (evs : List Ev) : ∀ m : Machine, SingleFlight m →
    SingleFlight (run m evs) := by
  induction evs with
  | nil => intro m h; exact h
  | cons e rest ih => intro m h; exact ih (stepEv m e) (stepEv_singleFlight m e h)

lemma init_singleFlight : SingleFlight init := by
  constructor
  · simp [init]
  · simp [init]

end Rebuild

/-- Counterexample to claim C1 as stated: in `followupTrace` the only
contribution-set mutation issued while a creation is in flight empties the
set; after that creation finishes (the `installed` entry), the queued
debounce performs no follow-up rebuild at all (zero `rebuildStarted`
entries), and its body runs twice with no intervening mutation (two
`debounceFired` entries) because the empty-set branch never cancels the
timer, which is still armed at the end of the trace. -/
theorem rebuild_followup_cex :
    (Rebuild.run Rebuild.init Rebuild.followupTrace).log
      = [Rebuild.Action.debounceFired, Rebuild.Action.rebuildStarted 0,
         Rebuild.Action.installed 0 (some 100) 100,
         Rebuild.Action.debounceFired, Rebuild.Action.clearedEmpty,
         Rebuild.Action.debounceFired, Rebuild.Action.clearedEmpty]
  ∧ ((Rebuild.run Rebuild.init Rebuild.followupTrace).log.drop 3).countP
        Rebuild.Action.isRebuildStart = 0
  ∧ ((Rebuild.run Rebuild.init Rebuild.followupTrace).log.drop 3).count
        Rebuild.Action.debounceFired = 2
  ∧ (Rebuild.run Rebuild.init Rebuild.followupTrace).listeners
      = [Rebuild.Listener.timer 0] := by
  decide

/-- Claim C1 (amended): for every event sequence at most one rebuild is in
flight at any time (the pending-creation flag tracks the unique readiness
poll), a contribution-set mutation queues a debounce timer only when none is
already queued, and when a queued debounce body runs with no creation in
flight and a nonempty contribution set it starts exactly one follow-up
rebuild and removes its timer.  (When it runs with an empty contribution set
it clears the current primitive, starts no rebuild, and stays armed.) -/
theorem rebuild_followup_discipline :
    (∀ evs : List Rebuild.Ev, Rebuild.SingleFlight (Rebuild.run Rebuild.init evs))
  ∧ (∀ (m : Rebuild.Machine) (inp : Rebuild.TickInput),
       m.listeners = [Rebuild.Listener.timer 30] → m.pendingCreation = false →
       m.geometries.isEmpty = false →
       Rebuild.tick m inp
         = { m with
             pendingUpdate := false
             pendingCreation := true
             nextId := m.nextId + 1
             listeners := [Rebuild.Listener.ready ⟨⟨m.nextId, m.geometries, none⟩, -1⟩]
             log := m.log ++ [Rebuild.Action.debounceFired,
                              Rebuild.Action.rebuildStarted inp.now] })
  ∧ (∀ (m : Rebuild.Machine) (g : Nat),
       (Rebuild.stepEv m (Rebuild.Ev.enable g)).listeners
         = (if m.pendingUpdate then m.listeners else m.listeners ++ [Rebuild.Listener.timer 0])
     ∧ (Rebuild.stepEv m (Rebuild.Ev.disable g)).listeners
         = (if m.pendingUpdate then m.listeners
            else m.listeners ++ [Rebuild.Listener.timer 0])) := by
  refine ⟨fun evs => Rebuild.run_singleFlight evs Rebuild.init Rebuild.init_singleFlight,
    ?_, ?_⟩
  · intro m inp hl hpc hg
    unfold Rebuild.tick
    rw [hl]
    simp [Rebuild.runListeners, Rebuild.runListener, hpc, hg]
  · intro m g
    constructor <;>
      (cases hpu : m.pendingUpdate <;> simp [Rebuild.stepEv, Rebuild.recreate, hpu])

/-- Witness for the amended C1: the empty trace, a firing debounce with one
contributed geometry, and mutations against a machine with a creation in
flight and no queued debounce. -/
theorem rebuild_followup_discipline_witness :
    Rebuild.SingleFlight (Rebuild.run Rebuild.init [])
  ∧ (Rebuild.fireM.listeners = [Rebuild.Listener.timer 30]
     ∧ Rebuild.fireM.pendingCreation = false
     ∧ Rebuild.fireM.geometries.isEmpty = false
     ∧ Rebuild.tick Rebuild.fireM Rebuild.quietTick
         = { Rebuild.fireM with
             pendingUpdate := false
             pendingCreation := true
             nextId := Rebuild.fireM.nextId + 1
             listeners := [Rebuild.Listener.ready
               ⟨⟨Rebuild.fireM.nextId, Rebuild.fireM.geometries, none⟩, -1⟩]
             log := Rebuild.fireM.log ++ [Rebuild.Action.debounceFired,
                      Rebuild.Action.rebuildStarted Rebuild.quietTick.now] })
  ∧ ((Rebuild.stepEv Rebuild.creatingM (Rebuild.Ev.enable 9)).listeners
       = (if Rebuild.creatingM.pendingUpdate then Rebuild.creatingM.listeners
          else Rebuild.creatingM.listeners ++ [Rebuild.Listener.timer 0])
     ∧ (Rebuild.stepEv Rebuild.creatingM (Rebuild.Ev.disable 9)).listeners
       = (if Rebuild.creatingM.pendingUpdate then Rebuild.creatingM.listeners
          else Rebuild.creatingM.listeners ++ [Rebuild.Listener.timer 0])) :=
  ⟨rebuild_followup_discipline.1 [],
   ⟨rfl, rfl, rfl,
    rebuild_followup_discipline.2.1 Rebuild.fireM Rebuild.quietTick rfl rfl rfl⟩,
   rebuild_followup_discipline.2.2 Rebuild.creatingM 9⟩

/-- Counterexample to claim C2 as stated: on the tick where the candidate
becomes ready but the frame-transform provider returns undefined, the
primitive is installed immediately with its default model matrix and the
readiness listener removes itself, so no retry of the transform update ever
happens (the claim said the install waits and the update is retried on the
next tick). -/
theorem ready_install_no_retry_cex :
    (Rebuild.tick Rebuild.creatingM Rebuild.noIcrfTick).scene = [⟨0, [5], none⟩]
  ∧ (Rebuild.tick Rebuild.creatingM Rebuild.noIcrfTick).primitive = some ⟨0, [5], none⟩
  ∧ (Rebuild.tick Rebuild.creatingM Rebuild.noIcrfTick).listeners = []
  ∧ (Rebuild.tick Rebuild.creatingM Rebuild.noIcrfTick).pendingCreation = false
  ∧ (Rebuild.tick Rebuild.creatingM Rebuild.noIcrfTick).log
      = [Rebuild.Action.installed 0 none 50] := by
  decide

/-- Claim C2 (amended): when the rebuilt candidate becomes ready, its
placement transform is set to the inertial-to-fixed rotation computed at the
simulated time of the tick on which it became ready (independent of the time
the rebuild was requested); if the frame-transform provider returns undefined
at that tick, the transform update is skipped entirely and the primitive is
nevertheless installed on that same tick with its existing default matrix;
in both cases the old current primitive is removed, the candidate becomes
current, the pending-creation flag clears and the readiness listener removes
itself (so a skipped transform is never retried). -/
theorem ready_installs_at_completion (m : Rebuild.Machine) (c : Rebuild.Creating)
    (inp : Rebuild.TickInput) (hl : m.listeners = [Rebuild.Listener.ready c])
    (hr : inp.isReady = true) :
    Rebuild.tick m inp
      = { m with
          scene := (match m.primitive with
                    | some p => m.scene.filter (fun q => q != p)
                    | none => m.scene)
            ++ [if inp.icrfDefined then { c.prim with modelMatrix := some inp.now }
                else c.prim],
          primitive := some (if inp.icrfDefined
                             then { c.prim with modelMatrix := some inp.now } else c.prim),
          pendingCreation := false,
          listeners := [],
          log := m.log ++ [Rebuild.Action.installed c.prim.pid
                  (if inp.icrfDefined then some inp.now else c.prim.modelMatrix) inp.now] } := by
  unfold Rebuild.tick
  rw [hl]
  cases hicrf : inp.icrfDefined <;>
    simp [Rebuild.runListeners, Rebuild.runListener, hr, hicrf]

/-- Witness for the amended C2: the machine with an in-flight candidate
(requested at time 0) completing at time 100 installs the candidate oriented
by the rotation computed at time 100. -/
theorem ready_installs_at_completion_witness :
    Rebuild.creatingM.listeners = [Rebuild.Listener.ready ⟨⟨0, [5], none⟩, -1⟩]
  ∧ Rebuild.readyTick.isReady = true
  ∧ Rebuild.tick Rebuild.creatingM Rebuild.readyTick
      = ⟨[5], some ⟨0, [5], some 100⟩, false, false, [⟨0, [5], some 100⟩], [], 1,
         [Rebuild.Action.installed 0 (some 100) 100]⟩ :=
  ⟨rfl, rfl,
   ready_installs_at_completion Rebuild.creatingM ⟨⟨0, [5], none⟩, -1⟩ Rebuild.readyTick rfl rfl⟩

/-- Counterexample to claim C3 as stated: in `debounceTrace` the timer armed
by the mutation in the idle state fires with an empty contribution set, and
then fires again 31 ticks later although no mutation armed a new timer; the
timer is still registered at the end of the trace. -/
theorem debounce_not_one_shot_cex :
    (Rebuild.run Rebuild.init Rebuild.debounceTrace).log
      = [Rebuild.Action.debounceFired, Rebuild.Action.clearedEmpty,
         Rebuild.Action.debounceFired, Rebuild.Action.clearedEmpty]
  ∧ (Rebuild.run Rebuild.init Rebuild.debounceTrace).listeners = [Rebuild.Listener.timer 0]
  ∧ (Rebuild.run Rebuild.init Rebuild.debounceTrace).log.count
      Rebuild.Action.debounceFired = 2 := by
  decide

/-- Claim C3 (amended): when the debounce body runs with no creation in
flight and an empty contribution set, the current batched primitive is
removed from the scene, the current reference is cleared and the
pending-update flag returns to idle, but the timer is not cancelled in this
branch: it stays registered with its counter reset and runs its body again
every 31 ticks until some run starts a creation (only the creation branch
invokes the cancel handle). -/
theorem debounce_empty_fire (m : Rebuild.Machine) (inp : Rebuild.TickInput)
    (hl : m.listeners = [Rebuild.Listener.timer 30])
    (hpc : m.pendingCreation = false) (hg : m.geometries = []) :
    Rebuild.tick m inp
      = { m with
          pendingUpdate := false
          scene := (match m.primitive with
                    | some p => m.scene.filter (fun q => q != p)
                    | none => m.scene)
          primitive := none
          listeners := [Rebuild.Listener.timer 0]
          log := m.log ++ [Rebuild.Action.debounceFired, Rebuild.Action.clearedEmpty] } := by
  unfold Rebuild.tick
  rw [hl]
  simp [Rebuild.runListeners, Rebuild.runListener, hpc, hg]

/-- Witness for the amended C3: a machine with an installed primitive, an
empty contribution set and a firing debounce timer: the primitive is removed
and cleared, and the timer remains registered. -/
theorem debounce_empty_fire_witness :
    Rebuild.fireEmptyM.listeners = [Rebuild.Listener.timer 30]
  ∧ Rebuild.fireEmptyM.pendingCreation = false
  ∧ Rebuild.fireEmptyM.geometries = []
  ∧ Rebuild.tick Rebuild.fireEmptyM Rebuild.quietTick
      = ⟨[], none, false, false, [], [Rebuild.Listener.timer 0], 1,
         [Rebuild.Action.debounceFired, Rebuild.Action.clearedEmpty]⟩ :=
  ⟨rfl, rfl, rfl,
   debounce_empty_fire Rebuild.fireEmptyM Rebuild.quietTick rfl rfl rfl⟩
